import Mathlib

/-!
Verification development for the `twilight` agent: an SNTP-backed synced
clock (`src/twilight/clock/__init__.py`, `src/twilight/clock/sntp.py`),
a broadcast presence-packet decoder (`src/twilight/discover.py`), a
device inventory, and the receive-loop state machine
(`src/twilight/main.py`).

The embedding is shallow: instants and offsets are rationals measured in
seconds since the NTP epoch (1900-01-01 UTC, the source's `NTP_EPOCH`);
wire timestamps are naturals in 2^32-ticks-per-second fixed point;
the network is an explicit oracle parameter (each call site of
`sntp.local_now()` / the UDP exchange receives its outcome as an
argument).  Python `bytes` become `List Nat` (each entry < 256 where it
matters).
-/

/-! ### SNTP codec (`src/twilight/clock/sntp.py`) -/

/-- `MAX32 = 2 ** 32`, the fixed-point scale factor (ticks per second). -/
def MAX32 : ℚ := 2 ^ 32

/-- `MAX32` as a natural, for wire-level arithmetic. -/
def MAX32N : ℕ := 2 ^ 32

/-- `LEAP.UNSYNCHRONIZED.value` — leap-indicator code 3. -/
def LEAP_UNSYNCHRONIZED : ℕ := 3

/-- `MODE.SERVER.value` — mode code 4. -/
def MODE_SERVER : ℕ := 4

/-- `LeapVerMode.from_packed`: leap indicator = `(value & 0b11000000) >> 6`. -/
def leapOf (value : ℕ) : ℕ := Nat.shiftRight (Nat.land value 0b11000000) 6

/-- `LeapVerMode.from_packed`: version = `(value & 0b00111000) >> 3`. -/
def versionOf (value : ℕ) : ℕ := Nat.shiftRight (Nat.land value 0b00111000) 3

/-- `LeapVerMode.from_packed`: mode = `value & 0b00000111`. -/
def modeOf (value : ℕ) : ℕ := Nat.land value 0b00000111

/-- The validation predicate of `sntp.server_offset` (line 72): the
decoded response is acceptable iff the leap indicator is not
UNSYNCHRONIZED, the mode is SERVER, `0 < stratum < 16`, and the transmit
timestamp is nonzero. -/
def serverResponseOk (lvm stratum tx_ts : ℕ) : Bool :=
  decide (leapOf lvm ≠ LEAP_UNSYNCHRONIZED) &&
  decide (modeOf lvm = MODE_SERVER) &&
  decide (0 < stratum) && decide (stratum < 16) &&
  decide (tx_ts ≠ 0)

/-- The pure tail of `sntp.server_offset` (lines 69–83), after the
response datagram has been unpacked into header byte `lvm`, `stratum`,
and the three wire timestamps, with `finish_ts` the local receive
instant in ticks.  On validation failure the Python function returns
`None` (modelled as `Option.none`); on success it returns the
offset/delay pair in seconds.  Python's `/` on the large integer ticks
is float division; it is modelled as exact rational division. -/
def server_offset (lvm stratum start_ts rx_ts tx_ts finish_ts : ℕ) :
    Option (ℚ × ℚ) :=
  if serverResponseOk lvm stratum tx_ts then
    let offset : ℚ :=
      (((rx_ts : ℚ) - start_ts) - ((finish_ts : ℚ) - tx_ts)) / 2
    let delay : ℚ :=
      ((finish_ts : ℚ) - start_ts) - ((tx_ts : ℚ) - rx_ts)
    some (offset / MAX32, delay / MAX32)
  else
    none

/-! ### SyncedClock (`src/twilight/clock/__init__.py`) -/

/-- `OWN_EPOCH = datetime(2024, 11, 1, tzinfo=timezone.utc)`, expressed
in seconds since `NTP_EPOCH` (45595 days × 86400 s). -/
def OWN_EPOCH : ℚ := 3939408000

/-- Per-deployment clock configuration (`CLOCK_CONFIG`), restricted to
the knobs the verified operations read. -/
structure ClockConfig where
  MAX_SYNC_AGE : ℚ
  OFFSET_BUFFER_SIZE : ℕ
  deriving DecidableEq, Repr

/-- The mutable state of `Clock`: the bound server (or `None`), the
instant of the last sync attempt, and the offset buffer (newest first;
`None` marks a failed attempt).  Offsets are seconds as rationals. -/
structure Clock where
  server : Option String
  last_refresh : ℚ
  offset_buffer : List (Option ℚ)
  deriving DecidableEq, Repr

/-- One observation of the environment consumed by a call to
`Clock.sync`: the value `sntp.local_now()` returns at its entry, and
the outcome of the UDP exchange — `some o` if `sntp.server_offset`
succeeded with offset `o`, `none` if it returned `None` or raised
(timeout, struct error); in the source all of those collapse to
`offset = None` via the bare `except Exception`. -/
def SyncEv : Type := ℚ × Option ℚ

/-- `Clock.reset(server=None)`: store the server, set `last_refresh` to
the protocol epoch, and fill the buffer with `OFFSET_BUFFER_SIZE`
absent samples. -/
def Clock.reset (cfg : ClockConfig) (server : Option String) : Clock :=
  { server := server
    last_refresh := 0
    offset_buffer := List.replicate cfg.OFFSET_BUFFER_SIZE none }

/-- `Clock.sync`: a no-op when no server is bound or the last attempt is
at most `MAX_SYNC_AGE` old; otherwise records the attempt instant and
pushes the exchange outcome as the newest sample
(`offset_buffer.pop(); offset_buffer.insert(0, offset)` = prepend and
drop the oldest, i.e. last, slot). -/
def Clock.sync (cfg : ClockConfig) (st : Clock) (e : SyncEv) : Clock :=
  match st.server with
  | none => st
  | some _ =>
    if e.1 - st.last_refresh ≤ cfg.MAX_SYNC_AGE then st
    else
      { server := st.server
        last_refresh := e.1
        offset_buffer := e.2 :: st.offset_buffer.dropLast }

/-- Python truthiness of one buffer slot, as tested by
`any(self.offset_buffer)`: `None` and the float `0.0` are falsy, every
other float is truthy. -/
def pyTruthy : Option ℚ → Bool
  | none => false
  | some q => decide (q ≠ 0)

/-- `Clock.is_valid`: syncs, then returns `any(self.offset_buffer)`.
Returns the post-sync state together with the boolean. -/
def Clock.is_valid (cfg : ClockConfig) (st : Clock) (e : SyncEv) :
    Clock × Bool :=
  let st1 := Clock.sync cfg st e
  (st1, st1.offset_buffer.any pyTruthy)

/-- `Clock.use_ntp_server(server)`: when the requested server is already
bound, do nothing and report success; otherwise reset onto the new
server, sync once (`e1`), re-check validity (whose own inner sync
consumes `e2`), and on an invalid outcome reset to the unbound state
and report failure. -/
def Clock.use_ntp_server (cfg : ClockConfig) (st : Clock) (server : String)
    (e1 e2 : SyncEv) : Clock × Bool :=
  if st.server = some server then (st, true)
  else
    let st1 := Clock.sync cfg (Clock.reset cfg (some server)) e1
    let p := Clock.is_valid cfg st1 e2
    if p.2 then (p.1, true) else (Clock.reset cfg none, false)

/-- The generator `(o for o in self.offset_buffer if o is not None)`:
the present samples, in buffer order. -/
def presentOffsets (l : List (Option ℚ)) : List ℚ := l.filterMap id

/-- `statistics.mean` over the present samples (sum divided by count;
the source raises on an empty input, which `now` never feeds it). -/
def offsetMean (l : List (Option ℚ)) : ℚ :=
  (presentOffsets l).sum / (presentOffsets l).length

/-- Number of `MAX32`-second spans the `while dt < OWN_EPOCH` loop in
`Clock.now` still has to add: `⌈(OWN_EPOCH − dt) / MAX32⌉`, clamped to
zero. -/
def bumpSteps (dt : ℚ) : ℕ := (⌈(OWN_EPOCH - dt) / MAX32⌉).toNat

/-- Fuel-indexed unrolling of the `while dt < OWN_EPOCH: dt += MAX32`
loop of `Clock.now`. -/
def bumpAux : ℕ → ℚ → ℚ
  | 0, dt => dt
  | k + 1, dt => if dt < OWN_EPOCH then bumpAux k (dt + MAX32) else dt

/-- The `while dt < OWN_EPOCH: dt += timedelta(seconds=sntp.MAX32)`
loop of `Clock.now` (lines 81–82): run `bumpAux` with exactly the fuel
the loop needs (`bump_unfold` below shows this equals the literal
loop). -/
def bump (dt : ℚ) : ℚ := bumpAux (bumpSteps dt) dt

/-- `Clock.now`: sync (`e1`), check validity (inner sync `e2`), raise
`UnsynchronizedException` (modelled `none`) when invalid; otherwise add
the mean present offset to `sntp.local_now()` (`lnow`) and bump the
result past `OWN_EPOCH`. -/
def Clock.now (cfg : ClockConfig) (st : Clock) (e1 e2 : SyncEv)
    (lnow : ℚ) : Clock × Option ℚ :=
  let st1 := Clock.sync cfg st e1
  let p := Clock.is_valid cfg st1 e2
  if p.2 then
    (p.1, some (bump (lnow + offsetMean p.1.offset_buffer)))
  else
    (p.1, none)

/-! #### `Clock.sleep`

The source line 90 reads `if not self.is_valid()` with the colon after
the condition missing, so `clock/__init__.py` as committed does not
parse (`SyntaxError`); every import of the module — hence every call of
`Clock.sleep` — raises.  The definitions below model the evident
intent, `if not self.is_valid():`, which is the only single-character
repair that parses; the theorems about them therefore speak about the
repaired function.

Each `now()` call the sleep loop makes consumes one `NowEnv`. -/

structure NowEnv where
  e1 : SyncEv
  e2 : SyncEv
  lnow : ℚ

/-- How a modelled `Clock.sleep` call finished:
`plain` — the clock was invalid on entry and the function did one plain
`time.sleep(delay)`; `normal` — the polling loop exited because the
target instant was reached; `degraded` — a `now()` inside the loop
raised `UnsynchronizedException` and the handler did a plain sleep for
the remaining estimate; `raised` — the `soon = self.now() + …` call on
line 94 (outside the `try`) raised, so the exception escapes to the
caller; `fuelOut` — the finite oracle script ran out while the loop was
still polling (an artifact of the finite model, not of the source). -/
inductive SleepOutcome where
  | plain
  | normal
  | degraded
  | raised
  | fuelOut
  deriving DecidableEq, Repr

/-- The `try: while soon > self.now(): time.sleep(resolution);
delay -= resolution / except UnsynchronizedException:
time.sleep(delay)` part of `Clock.sleep`.  Returns the final clock
state, the list of performed `time.sleep` durations, and the outcome. -/
def sleepLoop (cfg : ClockConfig) (st : Clock) (soon delay resolution : ℚ) :
    List NowEnv → Clock × List ℚ × SleepOutcome
  | [] => (st, [], .fuelOut)
  | ev :: evs =>
    match Clock.now cfg st ev.e1 ev.e2 ev.lnow with
    | (st1, none) => (st1, [delay], .degraded)
    | (st1, some t) =>
      if soon > t then
        let r := sleepLoop cfg st1 soon (delay - resolution) resolution evs
        (r.1, resolution :: r.2.1, r.2.2)
      else
        (st1, [], .normal)

/-- `Clock.sleep(delay, resolution)` with the line-90 colon restored:
if invalid, one plain `time.sleep(delay)`; otherwise compute
`soon = self.now() + delay` (this `now()` sits outside the `try`) and
run the polling loop. -/
def Clock.sleep (cfg : ClockConfig) (st : Clock) (delay resolution : ℚ)
    (e0 : SyncEv) (fstNow : NowEnv) (script : List NowEnv) :
    Clock × List ℚ × SleepOutcome :=
  match Clock.is_valid cfg st e0 with
  | (st1, false) => (st1, [delay], .plain)
  | (st1, true) =>
    match Clock.now cfg st1 fstNow.e1 fstNow.e2 fstNow.lnow with
    | (st2, none) => (st2, [], .raised)
    | (st2, some t) => sleepLoop cfg st2 (t + delay) delay resolution script

/-! ### Presence decoder (`src/twilight/discover.py`) -/

/-- A UTF-8 continuation byte (`0x80`–`0xBF`). -/
def isCont (b : ℕ) : Bool := decide (128 ≤ b) && decide (b ≤ 191)

/-- RFC 3629 UTF-8 validity of a byte string — the success condition of
Python's `bytes.decode()` (strict `utf-8`): overlong encodings,
surrogates and code points above U+10FFFF are rejected. -/
def validUtf8 : List ℕ → Bool
  | [] => true
  | b :: rest =>
    if b ≤ 127 then validUtf8 rest
    else if 194 ≤ b && b ≤ 223 then
      match rest with
      | c1 :: r => isCont c1 && validUtf8 r
      | [] => false
    else if b = 224 then
      match rest with
      | c1 :: c2 :: r =>
        (decide (160 ≤ c1) && decide (c1 ≤ 191)) && isCont c2 && validUtf8 r
      | _ => false
    else if (225 ≤ b && b ≤ 236) || b = 238 || b = 239 then
      match rest with
      | c1 :: c2 :: r => isCont c1 && isCont c2 && validUtf8 r
      | _ => false
    else if b = 237 then
      match rest with
      | c1 :: c2 :: r =>
        (decide (128 ≤ c1) && decide (c1 ≤ 159)) && isCont c2 && validUtf8 r
      | _ => false
    else if b = 240 then
      match rest with
      | c1 :: c2 :: c3 :: r =>
        (decide (144 ≤ c1) && decide (c1 ≤ 191)) && isCont c2 && isCont c3 &&
          validUtf8 r
      | _ => false
    else if 241 ≤ b && b ≤ 243 then
      match rest with
      | c1 :: c2 :: c3 :: r => isCont c1 && isCont c2 && isCont c3 && validUtf8 r
      | _ => false
    else if b = 244 then
      match rest with
      | c1 :: c2 :: c3 :: r =>
        (decide (128 ≤ c1) && decide (c1 ≤ 143)) && isCont c2 && isCont c3 &&
          validUtf8 r
      | _ => false
    else false

/-- The per-field decode rule, as in §4.3's
`(fieldName, wireWidth, decodeRule)` schema rows: `unknown` is the raw
hex dump `_unmarshal_unknown`, `uint` the default unsigned little-endian
integer, `ip` is `_unmarshal_ip`, `str` is `_unmarshal_string`, `ver`
is `_unmarshal_version` (format `4H`). -/
inductive FieldRule where
  | unknown
  | uint
  | ip
  | str
  | ver
  deriving DecidableEq, Repr

structure WireField where
  name : String
  width : ℕ
  rule : FieldRule
  deriving DecidableEq, Repr

/-- Little-endian unsigned integer value of a byte string
(`struct.unpack('<I')` / `('<H')`). -/
def leNat : List ℕ → ℕ
  | [] => 0
  | b :: r => b + 256 * leNat r

/-- `bytes.rstrip(b'\0')`. -/
def rstripNulls (l : List ℕ) : List ℕ :=
  (l.reverse.dropWhile (· = 0)).reverse

/-- The errors `Packet.discern` / `Packet.__init__` can raise:
`unknownMagic` is the explicit `Exception('weird payload magic number')`;
`structShort` is `struct.error` from unpacking fewer bytes than the
format needs; `unicodeErr` is `UnicodeDecodeError` from `.decode()`. -/
inductive DecodeErr where
  | unknownMagic
  | structShort
  | unicodeErr
  deriving DecidableEq, Repr

/-- A decoded field value. -/
inductive FieldValue where
  | hexv (bytes : List ℕ)
  | uintv (n : ℕ)
  | ipv (a b c d : ℕ)
  | strv (utf8 : List ℕ)
  | verv (a b c d : ℕ)
  deriving DecidableEq, Repr

/-- Apply one decode rule to the field's bytes.  Only `_unmarshal_string`
can fail (strict UTF-8 decode after stripping trailing NULs). -/
def unmarshal (rule : FieldRule) (bytes : List ℕ) :
    Except DecodeErr FieldValue :=
  match rule with
  | .unknown => .ok (.hexv bytes)
  | .uint => .ok (.uintv (leNat bytes))
  | .ip => .ok (.ipv (bytes.getD 0 0) (bytes.getD 1 0) (bytes.getD 2 0)
      (bytes.getD 3 0))
  | .str =>
    let s := rstripNulls bytes
    if validUtf8 s then .ok (.strv s) else .error .unicodeErr
  | .ver => .ok (.verv (leNat (bytes.take 2)) (leNat ((bytes.drop 2).take 2))
      (leNat ((bytes.drop 4).take 2)) (leNat ((bytes.drop 6).take 2)))

/-- The field loop of `Packet.__init__` (lines 57–65): consume each
schema row from the front of the payload; a row whose width exceeds the
remaining bytes makes `struct.unpack` raise.  Returns the decoded
`(name, value)` list and the unconsumed remainder. -/
def parseFields : List WireField → List ℕ →
    Except DecodeErr (List (String × FieldValue) × List ℕ)
  | [], l => .ok ([], l)
  | f :: fs, l =>
    if f.width ≤ l.length then
      match unmarshal f.rule (l.take f.width) with
      | .error e => .error e
      | .ok v =>
        match parseFields fs (l.drop f.width) with
        | .error e => .error e
        | .ok (d, r) => .ok ((f.name, v) :: d, r)
    else .error .structShort

/-- Total wire width of a schema. -/
def widthSum (fs : List WireField) : ℕ := (fs.map WireField.width).sum

/-- `NVRPacket._fields`. -/
def nvr_fields : List WireField :=
  [⟨"message_type", 4, .unknown⟩,
   ⟨"payload_length", 4, .uint⟩,
   ⟨"seq_or_id", 4, .unknown⟩,
   ⟨"unknown_0c", 4, .unknown⟩,
   ⟨"length_or_sid", 4, .unknown⟩,
   ⟨"trailer_length", 4, .uint⟩,
   ⟨"sid", 4, .unknown⟩,
   ⟨"unknown_1c", 4, .unknown⟩]

/-- `CameraPacket._fields`. -/
def camera_fields : List WireField :=
  [⟨"message_type", 4, .unknown⟩,
   ⟨"payload_length", 4, .uint⟩,
   ⟨"seq_or_id", 4, .unknown⟩,
   ⟨"unknown_0c", 4, .unknown⟩,
   ⟨"length_or_sid", 4, .unknown⟩,
   ⟨"trailer_length", 4, .uint⟩,
   ⟨"sid", 4, .unknown⟩,
   ⟨"unknown_1c", 4, .unknown⟩,
   ⟨"version", 8, .ver⟩,
   ⟨"hostname", 16, .str⟩,
   ⟨"ip", 4, .ip⟩,
   ⟨"subnet_mask", 4, .ip⟩,
   ⟨"default_gateway", 4, .ip⟩,
   ⟨"dns_ip", 4, .ip⟩,
   ⟨"alarm_ip", 4, .ip⟩,
   ⟨"alarm_port", 2, .uint⟩,
   ⟨"unknown_4e", 2, .unknown⟩,
   ⟨"email_ip", 4, .ip⟩,
   ⟨"email_port", 2, .uint⟩,
   ⟨"unknown_56", 8, .unknown⟩,
   ⟨"http_port", 2, .uint⟩,
   ⟨"https_port", 2, .uint⟩,
   ⟨"tcp_port", 2, .uint⟩,
   ⟨"max_connections", 2, .uint⟩,
   ⟨"ssl_port", 2, .uint⟩,
   ⟨"udp_port", 2, .uint⟩,
   ⟨"unknown_6a", 2, .unknown⟩,
   ⟨"multicast_ip", 4, .ip⟩,
   ⟨"multicast_port", 2, .uint⟩,
   ⟨"unknown_72", 6, .unknown⟩,
   ⟨"mac", 17, .str⟩,
   ⟨"model", 11, .str⟩]

/-- `str.splitlines(keepends=False)` over the decoded trailer, restricted
to the ASCII line terminators LF, CR and CRLF (the Unicode terminators
Python additionally recognizes cannot change any property proved here).
A terminator at the very end does not open a final empty line. -/
def splitLinesAux : List ℕ → List ℕ → List (List ℕ)
  | [], acc => if acc.isEmpty then [] else [acc.reverse]
  | 13 :: 10 :: rest, acc => acc.reverse :: splitLinesAux rest []
  | 13 :: rest, acc => acc.reverse :: splitLinesAux rest []
  | 10 :: rest, acc => acc.reverse :: splitLinesAux rest []
  | b :: rest, acc => splitLinesAux rest (b :: acc)

def splitLines (l : List ℕ) : List (List ℕ) := splitLinesAux l []

/-- ASCII whitespace, for the `\s*` in the trailer regex. -/
def isSpaceByte (b : ℕ) : Bool :=
  b = 32 || b = 9 || b = 10 || b = 11 || b = 12 || b = 13

/-- `re.match(r'([^:]+):\s*(.*)', line)`: at least one leading non-colon
character, a colon, optional whitespace, then the value. -/
def lineKV (line : List ℕ) : Option (List ℕ × List ℕ) :=
  let key := line.takeWhile (· ≠ 58)
  let rest := line.dropWhile (· ≠ 58)
  match rest with
  | 58 :: tail => if key.isEmpty then none else some (key, tail.dropWhile isSpaceByte)
  | _ => none

/-- Dict assignment `self.trailer[k] = v`: replace in place, else
append. -/
def upsert {α β : Type} [DecidableEq α] (k : α) (v : β) :
    List (α × β) → List (α × β)
  | [] => [(k, v)]
  | (k', v') :: rest =>
    if k' = k then (k, v) :: rest else (k', v') :: upsert k v rest

/-- The trailer loop of `Packet.__init__` (lines 68–70): matching lines
populate the trailer mapping, non-matching lines are skipped. -/
def trailerPairs (lines : List (List ℕ)) : List (List ℕ × List ℕ) :=
  lines.foldl
    (fun acc line =>
      match lineKV line with
      | some (k, v) => upsert k v acc
      | none => acc)
    []

/-- `f.read().decode()` followed by the trailer loop: fails iff the
remaining bytes are not valid UTF-8. -/
def parseTrailer (bytes : List ℕ) :
    Except DecodeErr (List (List ℕ × List ℕ)) :=
  if validUtf8 bytes then .ok (trailerPairs (splitLines bytes)) else
    .error .unicodeErr

inductive PacketKind where
  | nvr
  | camera
  deriving DecidableEq, Repr

/-- A decoded presence record (`NVRPacket` / `CameraPacket` instance):
the variant tag, originating host, the fixed-schema `data` dict, and
the `trailer` dict. -/
structure Record where
  kind : PacketKind
  host : String
  data : List (String × FieldValue)
  trailer : List (List ℕ × List ℕ)
  deriving DecidableEq, Repr

/-- `Packet.__init__` specialised to one schema: fixed fields, then the
trailer block. -/
def buildRecord (kind : PacketKind) (fields : List WireField)
    (payload : List ℕ) (host : String) : Except DecodeErr Record :=
  match parseFields fields payload with
  | .error e => .error e
  | .ok dr =>
    match parseTrailer dr.2 with
    | .error e => .error e
    | .ok tr => .ok ⟨kind, host, dr.1, tr⟩

/-- `Packet.discern` followed by the selected constructor: dispatch on
the first payload byte (`0xA3` → NVR, `0xB3` → camera, else the
"weird payload magic number" exception). -/
def discern (payload : List ℕ) (host : String) : Except DecodeErr Record :=
  match payload with
  | 0xA3 :: _ => buildRecord .nvr nvr_fields payload host
  | 0xB3 :: _ => buildRecord .camera camera_fields payload host
  | _ => .error .unknownMagic

/-! ### Inventory and receive-loop state machine
(`src/twilight/discover.py` lines 8–31, `src/twilight/main.py`) -/

/-- `Inventory.table`: decoded records keyed by originating host, each
with the `clock.now()` instant at registration. -/
abbrev Inventory : Type := List (String × (ℚ × Record))

/-- `Inventory.register`: `self.table[packet.host] = (clock.now(), packet)`. -/
def Inventory.register (inv : Inventory) (t : ℚ) (r : Record) : Inventory :=
  upsert r.host (t, r) inv

/-- `Inventory.do_expirations`: keep entries with
`(now - lastSeen).total_seconds() <= max_age`. -/
def Inventory.do_expirations (inv : Inventory) (now max_age : ℚ) :
    Inventory :=
  inv.filter (fun kv => decide (now - kv.2.1 ≤ max_age))

/-- The `STATE` enum of `main.py`. -/
inductive STATE where
  | UNINITIALIZED
  | RUNNING
  | CLOCK_LOST
  deriving DecidableEq, Repr

/-- Registry operations performed during one receive-loop iteration, in
order. -/
inductive InvAction where
  | registerA (host : String)
  | expireA
  | resetA
  deriving DecidableEq, Repr

/-- The shared state the receive loop mutates: the `state` enum, the
clock singleton, and the inventory singleton. -/
structure Sys where
  state : STATE
  clock : Clock
  inv : Inventory
  deriving DecidableEq, Repr

/-- Environment for one receive-loop iteration: `a`/`b` feed
`clock.use_ntp_server` (its direct `sync` and the `sync` inside its
`is_valid` check), `c` feeds the `clock.is_valid()` gate of the
`RUNNING` arm, and `d`/`e` feed the `clock.now()` calls made by
`inventory.register` and `inventory.do_expirations`. -/
structure StepEnv where
  a : SyncEv
  b : SyncEv
  c : SyncEv
  d : NowEnv
  e : NowEnv

/-- One iteration of the `match state` block of `receive_loop`
(`main.py` lines 46–74), given the decoded packet of this iteration
(`none` on receive timeout).  Returns `none` when an
`UnsynchronizedException` from `clock.now()` inside `register` /
`do_expirations` escapes the loop and kills the thread
(`thread_crash_hook`); otherwise the new shared state and the registry
actions performed.  Note the `UNINITIALIZED` arm assigns
`state = STATE.RUNNING` without consulting the value
`clock.use_ntp_server` returned. -/
def receiveStep (cfg : ClockConfig) (max_age : ℚ) (s : Sys)
    (pkt : Option Record) (env : StepEnv) :
    Option (Sys × List InvAction) :=
  match s.state with
  | .UNINITIALIZED =>
    match pkt with
    | some r =>
      if r.kind = .nvr then
        let p := Clock.use_ntp_server cfg s.clock r.host env.a env.b
        some ({ state := .RUNNING, clock := p.1, inv := s.inv }, [])
      else
        some (s, [])
    | none => some (s, [])
  | .RUNNING =>
    let p := Clock.is_valid cfg s.clock env.c
    if p.2 then
      match pkt with
      | some r =>
        let q := Clock.now cfg p.1 env.d.e1 env.d.e2 env.d.lnow
        match q.2 with
        | none => none
        | some t =>
          let inv1 := Inventory.register s.inv t r
          let w := Clock.now cfg q.1 env.e.e1 env.e.e2 env.e.lnow
          match w.2 with
          | none => none
          | some t2 =>
            some ({ state := .RUNNING, clock := w.1,
                    inv := Inventory.do_expirations inv1 t2 max_age },
                  [.registerA r.host, .expireA])
      | none =>
        let w := Clock.now cfg p.1 env.e.e1 env.e.e2 env.e.lnow
        match w.2 with
        | none => none
        | some t2 =>
          some ({ state := .RUNNING, clock := w.1,
                  inv := Inventory.do_expirations s.inv t2 max_age },
                [.expireA])
    else
      some ({ state := .CLOCK_LOST, clock := p.1, inv := s.inv }, [])
  | .CLOCK_LOST =>
    some ({ state := .UNINITIALIZED, clock := s.clock, inv := [] },
          [.resetA])

/-- Count of `Inventory.reset` calls in an action trace. -/
def countResets (as' : List InvAction) : ℕ :=
  as'.countP (fun a => decide (a = .resetA))

theorem MAX32_pos : (0 : ℚ) < MAX32 := by norm_num [MAX32]

theorem bumpSteps_eq_zero {dt : ℚ} (h : OWN_EPOCH ≤ dt) :
    bumpSteps dt = 0 := by
  have hq : (OWN_EPOCH - dt) / MAX32 ≤ ((0 : ℤ) : ℚ) := by
    push_cast
    exact div_nonpos_of_nonpos_of_nonneg (by linarith) MAX32_pos.le
  have := Int.ceil_le.mpr hq
  unfold bumpSteps
  omega

theorem bumpSteps_succ {dt : ℚ} (h : dt < OWN_EPOCH) :
    bumpSteps dt = bumpSteps (dt + MAX32) + 1 := by
  have hM : (MAX32 : ℚ) ≠ 0 := MAX32_pos.ne'
  have hrw : (OWN_EPOCH - (dt + MAX32)) / MAX32 =
      (OWN_EPOCH - dt) / MAX32 - 1 := by
    field_simp
    ring
  have hceil : ⌈(OWN_EPOCH - (dt + MAX32)) / MAX32⌉ =
      ⌈(OWN_EPOCH - dt) / MAX32⌉ - 1 := by
    rw [hrw, Int.ceil_sub_one]
  have hpos : 0 < ⌈(OWN_EPOCH - dt) / MAX32⌉ :=
    Int.ceil_pos.mpr (div_pos (by linarith) MAX32_pos)
  unfold bumpSteps
  omega

theorem bumpAux_ge :
    ∀ (k : ℕ) (dt : ℚ), bumpSteps dt ≤ k → OWN_EPOCH ≤ bumpAux k dt := by
  intro k
  induction k with
  | zero =>
    intro dt hk
    simp only [bumpAux]
    by_contra hlt
    push_neg at hlt
    have hpos : 0 < ⌈(OWN_EPOCH - dt) / MAX32⌉ :=
      Int.ceil_pos.mpr (div_pos (by linarith) MAX32_pos)
    unfold bumpSteps at hk
    omega
  | succ k ih =>
    intro dt hk
    by_cases h : dt < OWN_EPOCH
    · have hs := bumpSteps_succ h
      simp only [bumpAux, if_pos h]
      exact ih (dt + MAX32) (by omega)
    · simp only [bumpAux, if_neg h]
      exact le_of_not_lt h

/-- `bump` lands at or after `OWN_EPOCH`, always. -/
theorem bump_ge (dt : ℚ) : OWN_EPOCH ≤ bump dt :=
  bumpAux_ge (bumpSteps dt) dt le_rfl

/-- When the raw instant is already in range, the `while` loop does not
run. -/
theorem bump_eq_self {dt : ℚ} (h : OWN_EPOCH ≤ dt) : bump dt = dt := by
  unfold bump
  rw [bumpSteps_eq_zero h]
  rfl

/-- `bump` satisfies the literal recurrence of the source loop
`while dt < OWN_EPOCH: dt += timedelta(seconds=sntp.MAX32)`. -/
theorem bump_unfold (dt : ℚ) :
    bump dt = if dt < OWN_EPOCH then bump (dt + MAX32) else dt := by
  by_cases h : dt < OWN_EPOCH
  · rw [if_pos h]
    unfold bump
    rw [bumpSteps_succ h]
    simp only [bumpAux, if_pos h]
  · rw [if_neg h]
    exact bump_eq_self (le_of_not_lt h)

/-! ### C7 — `now()` never precedes `OWN_EPOCH` -/

/-- The result component of `Clock.now`, isolated. -/
theorem now_snd (cfg : ClockConfig) (st : Clock) (e1 e2 : SyncEv)
    (lnow : ℚ) :
    (Clock.now cfg st e1 e2 lnow).2 =
      if (Clock.is_valid cfg (Clock.sync cfg st e1) e2).2 then
        some (bump (lnow +
          offsetMean (Clock.is_valid cfg (Clock.sync cfg st e1)
            e2).1.offset_buffer))
      else none := by
  by_cases hv : (Clock.is_valid cfg (Clock.sync cfg st e1) e2).2
  · simp [Clock.now, hv]
  · simp [Clock.now, hv]

/-- C7: whenever `now()` succeeds, the returned instant is at or after
the application epoch `OWN_EPOCH`; the `while dt < OWN_EPOCH` loop adds
`MAX32`-second spans until this holds (see `bump_unfold` for the loop
recurrence and `bump_ge` for the invariant). -/
theorem c7_now_not_before_own_epoch (cfg : ClockConfig) (st : Clock)
    (e1 e2 : SyncEv) (lnow t : ℚ)
    (h : (Clock.now cfg st e1 e2 lnow).2 = some t) : OWN_EPOCH ≤ t := by
  rw [now_snd] at h
  by_cases hv : (Clock.is_valid cfg (Clock.sync cfg st e1) e2).2
  · rw [if_pos hv] at h
    obtain rfl := Option.some.inj h
    exact bump_ge _
  · rw [if_neg hv] at h
    exact absurd h (by simp)

/-- Witness for C7: a concrete successful `now()` call (valid buffer
`[some 1]`, local instant exactly `OWN_EPOCH`) lands at
`OWN_EPOCH + 1`. -/
theorem c7_now_not_before_own_epoch_witness :
    OWN_EPOCH ≤ (3939408001 : ℚ) := by
  have hb : bump ((3939408001 : ℚ)) = 3939408001 :=
    bump_eq_self (by norm_num [OWN_EPOCH])
  refine c7_now_not_before_own_epoch ⟨64, 1⟩ ⟨some "h", 0, [some 1]⟩
    ((0 : ℚ), none) ((0 : ℚ), none) 3939408000 3939408001 ?_
  rw [now_snd]
  have hfm : (List.filterMap id [some (1 : ℚ)]) = [1] := rfl
  norm_num [Clock.is_valid, Clock.sync, pyTruthy, offsetMean,
    presentOffsets, hfm, hb]

/-! ### C1 — Uninitialized + NVR record -/

/-- Counterexample to C1: from `UNINITIALIZED`, an NVR record whose bind
attempt fails (the SNTP exchange yields no sample, so
`use_ntp_server` resets the clock and returns `False`) still moves the
state machine to `RUNNING`: `receive_loop` never consults the returned
boolean.  The claim demands the state stay `Uninitialized` in exactly
this situation. -/
theorem c1_counterexample :
    (Clock.use_ntp_server ⟨64, 1⟩ ⟨none, 0, [none]⟩ "192.0.2.9"
        ((100 : ℚ), none) ((100 : ℚ), none)).2 = false ∧
    receiveStep ⟨64, 1⟩ 60 ⟨.UNINITIALIZED, ⟨none, 0, [none]⟩, []⟩
        (some ⟨.nvr, "192.0.2.9", [], []⟩)
        ⟨((100 : ℚ), none), ((100 : ℚ), none), ((0 : ℚ), none),
          ⟨((0 : ℚ), none), ((0 : ℚ), none), 0⟩,
          ⟨((0 : ℚ), none), ((0 : ℚ), none), 0⟩⟩ =
      some (⟨.RUNNING, ⟨none, 0, [none]⟩, []⟩, []) := by
  constructor
  · norm_num [Clock.use_ntp_server, Clock.reset, Clock.sync,
      Clock.is_valid, pyTruthy, List.dropLast]
    simp
  · norm_num [receiveStep, Clock.use_ntp_server, Clock.reset, Clock.sync,
      Clock.is_valid, pyTruthy, List.dropLast]
    simp

/-- C1 (amended): in `UNINITIALIZED`, receiving an NVR-kind record moves
the machine to `RUNNING` unconditionally — `clock.use_ntp_server`'s
success flag is ignored; a failed bind leaves an invalid clock that the
next `RUNNING` iteration routes through `CLOCK_LOST` back to
`UNINITIALIZED`. -/
theorem c1_nvr_always_enters_running (cfg : ClockConfig) (max_age : ℚ)
    (s : Sys) (r : Record) (env : StepEnv)
    (hstate : s.state = .UNINITIALIZED) (hkind : r.kind = .nvr) :
    receiveStep cfg max_age s (some r) env =
      some ({ state := .RUNNING,
              clock := (Clock.use_ntp_server cfg s.clock r.host
                env.a env.b).1,
              inv := s.inv }, []) := by
  unfold receiveStep
  rw [hstate]
  simp [hkind]

/-- Witness for C1 (amended): the transition fires even for a bind that
fails. -/
theorem c1_nvr_always_enters_running_witness :
    receiveStep ⟨64, 1⟩ 60 ⟨.UNINITIALIZED, ⟨none, 0, [none]⟩, []⟩
        (some ⟨.nvr, "192.0.2.9", [], []⟩)
        ⟨((100 : ℚ), none), ((100 : ℚ), none), ((0 : ℚ), none),
          ⟨((0 : ℚ), none), ((0 : ℚ), none), 0⟩,
          ⟨((0 : ℚ), none), ((0 : ℚ), none), 0⟩⟩ =
      some ({ state := .RUNNING,
              clock := (Clock.use_ntp_server ⟨64, 1⟩ ⟨none, 0, [none]⟩
                "192.0.2.9" ((100 : ℚ), none) ((100 : ℚ), none)).1,
              inv := [] }, []) :=
  c1_nvr_always_enters_running ⟨64, 1⟩ 60
    ⟨.UNINITIALIZED, ⟨none, 0, [none]⟩, []⟩ ⟨.nvr, "192.0.2.9", [], []⟩
    ⟨((100 : ℚ), none), ((100 : ℚ), none), ((0 : ℚ), none),
      ⟨((0 : ℚ), none), ((0 : ℚ), none), 0⟩,
      ⟨((0 : ℚ), none), ((0 : ℚ), none), 0⟩⟩ rfl rfl

/-! ### C4 — registry reset discipline around clock loss -/

/-- `RUNNING` with an invalid clock: only the state flips to
`CLOCK_LOST`; the inventory is untouched and no registry action runs
(the `continue`). -/
theorem receiveStep_running_invalid (cfg : ClockConfig) (max_age : ℚ)
    (s : Sys) (pkt : Option Record) (env : StepEnv)
    (hrun : s.state = .RUNNING)
    (hv : (Clock.is_valid cfg s.clock env.c).2 = false) :
    receiveStep cfg max_age s pkt env =
      some ({ state := .CLOCK_LOST,
              clock := (Clock.is_valid cfg s.clock env.c).1,
              inv := s.inv }, []) := by
  unfold receiveStep
  rw [hrun]
  simp [hv]

/-- `CLOCK_LOST`: reset the inventory (the single `inventory.reset()`
call of the loop) and return to `UNINITIALIZED`. -/
theorem receiveStep_clock_lost (cfg : ClockConfig) (max_age : ℚ)
    (s : Sys) (pkt : Option Record) (env : StepEnv)
    (hlost : s.state = .CLOCK_LOST) :
    receiveStep cfg max_age s pkt env =
      some ({ state := .UNINITIALIZED, clock := s.clock, inv := [] },
        [.resetA]) := by
  unfold receiveStep
  rw [hlost]

/-- `RUNNING`, valid clock, record received: when the iteration
completes (no `now()` crash) it registers then expires — no reset —
and stays `RUNNING`. -/
theorem receiveStep_running_valid_record (cfg : ClockConfig)
    (max_age : ℚ) (s : Sys) (r : Record) (env : StepEnv)
    (s1 : Sys) (as1 : List InvAction)
    (hrun : s.state = .RUNNING)
    (hv : (Clock.is_valid cfg s.clock env.c).2 = true)
    (h : receiveStep cfg max_age s (some r) env = some (s1, as1)) :
    s1.state = .RUNNING ∧ as1 = [.registerA r.host, .expireA] := by
  unfold receiveStep at h
  rw [hrun] at h
  simp only [hv, if_true] at h
  cases hq : (Clock.now cfg (Clock.is_valid cfg s.clock env.c).1
      env.d.e1 env.d.e2 env.d.lnow).2 with
  | none =>
    rw [hq] at h
    exact absurd h (by simp)
  | some t =>
    rw [hq] at h
    cases hw : (Clock.now cfg
        (Clock.now cfg (Clock.is_valid cfg s.clock env.c).1
          env.d.e1 env.d.e2 env.d.lnow).1
        env.e.e1 env.e.e2 env.e.lnow).2 with
    | none =>
      rw [hw] at h
      exact absurd h (by simp)
    | some t2 =>
      rw [hw] at h
      obtain ⟨h1, h2⟩ := Prod.mk.injEq .. |>.mp (Option.some.inj h)
      constructor
      · rw [← h1]
      · exact h2.symm

/-- C4: starting from `RUNNING`, over the iteration sequence
[valid clock + record, invalid clock, (next iteration)] the registry is
reset exactly once in total; no reset and no registry mutation happens
on the `RUNNING → CLOCK_LOST` edge itself, and the single reset happens
on the following `CLOCK_LOST → UNINITIALIZED` step. -/
theorem c4_registry_reset_exactly_once (cfg : ClockConfig) (max_age : ℚ)
    (s s1 s2 s3 : Sys) (r : Record) (pkt2 pkt3 : Option Record)
    (env1 env2 env3 : StepEnv) (as1 as2 as3 : List InvAction)
    (hrun : s.state = .RUNNING)
    (hv1 : (Clock.is_valid cfg s.clock env1.c).2 = true)
    (h1 : receiveStep cfg max_age s (some r) env1 = some (s1, as1))
    (hv2 : (Clock.is_valid cfg s1.clock env2.c).2 = false)
    (h2 : receiveStep cfg max_age s1 pkt2 env2 = some (s2, as2))
    (h3 : receiveStep cfg max_age s2 pkt3 env3 = some (s3, as3)) :
    countResets (as1 ++ as2 ++ as3) = 1 ∧
    as2 = [] ∧ s2.inv = s1.inv ∧ s2.state = .CLOCK_LOST ∧
    as3 = [.resetA] ∧ s3.state = .UNINITIALIZED := by
  obtain ⟨hs1, has1⟩ :=
    receiveStep_running_valid_record cfg max_age s r env1 s1 as1
      hrun hv1 h1
  rw [receiveStep_running_invalid cfg max_age s1 pkt2 env2 hs1 hv2] at h2
  obtain ⟨h2a, h2b⟩ := Prod.mk.injEq .. |>.mp (Option.some.inj h2)
  rw [receiveStep_clock_lost cfg max_age s2 pkt3 env3
    (by rw [← h2a])] at h3
  obtain ⟨h3a, h3b⟩ := Prod.mk.injEq .. |>.mp (Option.some.inj h3)
  refine ⟨?_, h2b.symm, ?_, ?_, h3b.symm, ?_⟩
  · rw [has1, ← h2b, ← h3b]
    simp [countResets]
  · rw [← h2a]
  · rw [← h2a]
  · rw [← h3a]

/-- Witness for C4: a concrete three-iteration run.  Buffer size 1 and
a `MAX_SYNC_AGE` of 64: iteration 1 syncs nothing (fresh refresh) and
registers the record at `OWN_EPOCH + 1`; iteration 2's validity check
re-syncs at local time 200, evicting the only present sample, so the
clock goes invalid; iteration 3 performs the single reset. -/
theorem c4_registry_reset_exactly_once_witness :
    countResets ([.registerA "cam1", .expireA] ++ [] ++ [.resetA]) = 1 ∧
    ([] : List InvAction) = [] ∧
    (⟨.CLOCK_LOST, ⟨some "h", 200, [none]⟩,
        [("cam1", ((3939408001 : ℚ),
          (⟨.camera, "cam1", [], []⟩ : Record)))]⟩ : Sys).inv =
      (⟨.RUNNING, ⟨some "h", 100, [some 1]⟩,
        [("cam1", ((3939408001 : ℚ),
          (⟨.camera, "cam1", [], []⟩ : Record)))]⟩ : Sys).inv ∧
    (⟨.CLOCK_LOST, ⟨some "h", 200, [none]⟩,
        [("cam1", ((3939408001 : ℚ),
          (⟨.camera, "cam1", [], []⟩ : Record)))]⟩ : Sys).state =
      .CLOCK_LOST ∧
    ([InvAction.resetA] : List InvAction) = [.resetA] ∧
    (⟨.UNINITIALIZED, ⟨some "h", 200, [none]⟩, []⟩ : Sys).state =
      .UNINITIALIZED := by
  have hb : bump ((3939408001 : ℚ)) = 3939408001 :=
    bump_eq_self (by norm_num [OWN_EPOCH])
  have hfm : (List.filterMap id [some (1 : ℚ)]) = [1] := rfl
  refine c4_registry_reset_exactly_once ⟨64, 1⟩ 60
    ⟨.RUNNING, ⟨some "h", 100, [some 1]⟩, []⟩
    ⟨.RUNNING, ⟨some "h", 100, [some 1]⟩,
      [("cam1", ((3939408001 : ℚ), ⟨.camera, "cam1", [], []⟩))]⟩
    ⟨.CLOCK_LOST, ⟨some "h", 200, [none]⟩,
      [("cam1", ((3939408001 : ℚ), ⟨.camera, "cam1", [], []⟩))]⟩
    ⟨.UNINITIALIZED, ⟨some "h", 200, [none]⟩, []⟩
    ⟨.camera, "cam1", [], []⟩ none none
    ⟨((100 : ℚ), none), ((100 : ℚ), none), ((100 : ℚ), none),
      ⟨((100 : ℚ), none), ((100 : ℚ), none), 3939408000⟩,
      ⟨((100 : ℚ), none), ((100 : ℚ), none), 3939408000⟩⟩
    ⟨((100 : ℚ), none), ((100 : ℚ), none), ((200 : ℚ), none),
      ⟨((100 : ℚ), none), ((100 : ℚ), none), 3939408000⟩,
      ⟨((100 : ℚ), none), ((100 : ℚ), none), 3939408000⟩⟩
    ⟨((100 : ℚ), none), ((100 : ℚ), none), ((200 : ℚ), none),
      ⟨((100 : ℚ), none), ((100 : ℚ), none), 3939408000⟩,
      ⟨((100 : ℚ), none), ((100 : ℚ), none), 3939408000⟩⟩
    [.registerA "cam1", .expireA] [] [.resetA]
    rfl ?_ ?_ ?_ ?_ ?_
  · norm_num [Clock.is_valid, Clock.sync, pyTruthy]
  · norm_num [receiveStep, Clock.now, Clock.is_valid, Clock.sync,
      pyTruthy, offsetMean, presentOffsets, hfm, hb,
      Inventory.register, Inventory.do_expirations, upsert]
  · norm_num [Clock.is_valid, Clock.sync, pyTruthy, List.dropLast]
  · norm_num [receiveStep, Clock.is_valid, Clock.sync, pyTruthy,
      List.dropLast]
  · rfl

/-! ### C3 — decoder dispatch and failure modes -/

/-- A successful field pass consumed exactly the schema's width, so the
payload must have been at least that long. -/
theorem parseFields_ok_bounds :
    ∀ (fs : List WireField) (l : List ℕ)
      (d : List (String × FieldValue)) (r : List ℕ),
      parseFields fs l = .ok (d, r) →
      widthSum fs ≤ l.length ∧ r = l.drop (widthSum fs) := by
  intro fs
  induction fs with
  | nil =>
    intro l d r h
    simp only [parseFields, Except.ok.injEq, Prod.mk.injEq] at h
    refine ⟨by simp [widthSum], ?_⟩
    rw [← h.2]
    simp [widthSum]
  | cons f fs ih =>
    intro l d r h
    unfold parseFields at h
    by_cases hw : f.width ≤ l.length
    · rw [if_pos hw] at h
      cases hu : unmarshal f.rule (l.take f.width) with
      | error e => rw [hu] at h; exact absurd h (by simp)
      | ok v =>
        rw [hu] at h
        cases hr : parseFields fs (l.drop f.width) with
        | error e => rw [hr] at h; exact absurd h (by simp)
        | ok dr =>
          obtain ⟨d', r'⟩ := dr
          rw [hr] at h
          simp only [Except.ok.injEq, Prod.mk.injEq] at h
          obtain ⟨hA, hB⟩ := ih (l.drop f.width) d' r' hr
          have hws : widthSum (f :: fs) = f.width + widthSum fs := by
            simp [widthSum]
          rw [List.length_drop] at hA
          refine ⟨by omega, ?_⟩
          rw [← h.2, hB, List.drop_drop, hws]
    · rw [if_neg hw] at h
      exact absurd h (by simp)

/-- Decode rules other than `_unmarshal_string` never fail. -/
theorem unmarshal_nonstr (rule : FieldRule) (bytes : List ℕ)
    (h : rule ≠ .str) : ∃ v, unmarshal rule bytes = .ok v := by
  cases rule with
  | str => exact absurd rfl h
  | unknown => exact ⟨_, rfl⟩
  | uint => exact ⟨_, rfl⟩
  | ip => exact ⟨_, rfl⟩
  | ver => exact ⟨_, rfl⟩

/-- The only error a decode rule can produce is the Unicode one. -/
theorem unmarshal_error_unicode (rule : FieldRule) (bytes : List ℕ)
    (e : DecodeErr) (h : unmarshal rule bytes = .error e) :
    e = .unicodeErr := by
  cases rule with
  | unknown => exact absurd h (by simp [unmarshal])
  | uint => exact absurd h (by simp [unmarshal])
  | ip => exact absurd h (by simp [unmarshal])
  | ver => exact absurd h (by simp [unmarshal])
  | str =>
    simp only [unmarshal] at h
    split at h
    · exact absurd h (by simp)
    · injection h with h1
      exact h1.symm

/-- A schema without string-rule fields decodes from any payload at
least as long as its total width. -/
theorem parseFields_nonstr_ok :
    ∀ (fs : List WireField) (l : List ℕ),
      (∀ f ∈ fs, f.rule ≠ FieldRule.str) → widthSum fs ≤ l.length →
      ∃ d, parseFields fs l = .ok (d, l.drop (widthSum fs)) := by
  intro fs
  induction fs with
  | nil =>
    intro l _ _
    exact ⟨[], by simp [parseFields, widthSum]⟩
  | cons f fs ih =>
    intro l hns hw
    have hws : widthSum (f :: fs) = f.width + widthSum fs := by
      simp [widthSum]
    rw [hws] at hw ⊢
    have hw1 : f.width ≤ l.length := by omega
    obtain ⟨v, hv⟩ := unmarshal_nonstr f.rule (l.take f.width)
      (hns f (by simp))
    have hw2 : widthSum fs ≤ (l.drop f.width).length := by
      rw [List.length_drop]
      omega
    obtain ⟨d, hd⟩ := ih (l.drop f.width)
      (fun g hg => hns g (by simp [hg])) hw2
    refine ⟨(f.name, v) :: d, ?_⟩
    unfold parseFields
    rw [if_pos hw1, hv, hd, List.drop_drop]

/-- Field decoding never produces the magic-byte error. -/
theorem parseFields_no_magic :
    ∀ (fs : List WireField) (l : List ℕ),
      parseFields fs l ≠ .error .unknownMagic := by
  intro fs
  induction fs with
  | nil => intro l h; simp [parseFields] at h
  | cons f fs ih =>
    intro l h
    unfold parseFields at h
    by_cases hw : f.width ≤ l.length
    · rw [if_pos hw] at h
      cases hu : unmarshal f.rule (l.take f.width) with
      | error e =>
        rw [hu] at h
        simp only [Except.error.injEq] at h
        rw [unmarshal_error_unicode f.rule _ e hu] at h
        simp at h
      | ok v =>
        rw [hu] at h
        cases hr : parseFields fs (l.drop f.width) with
        | error e =>
          rw [hr] at h
          simp only [Except.error.injEq] at h
          rw [h] at hr
          exact ih _ hr
        | ok dr =>
          obtain ⟨d', r'⟩ := dr
          rw [hr] at h
          simp at h
    · rw [if_neg hw] at h
      simp at h

/-- When field parsing fails, `buildRecord` forwards that error. -/
theorem buildRecord_eq_of_fields_error {fs : List WireField} {p : List ℕ}
    {e : DecodeErr} (k : PacketKind) (host : String)
    (hf : parseFields fs p = .error e) :
    buildRecord k fs p host = .error e := by
  unfold buildRecord
  rw [hf]

/-- When field parsing succeeds, `buildRecord` reduces to the trailer
phase. -/
theorem buildRecord_eq_of_fields_ok {fs : List WireField} {p : List ℕ}
    {dr : List (String × FieldValue) × List ℕ} (k : PacketKind)
    (host : String) (hf : parseFields fs p = .ok dr) :
    buildRecord k fs p host =
      match parseTrailer dr.2 with
      | .error e => .error e
      | .ok tr => .ok ⟨k, host, dr.1, tr⟩ := by
  unfold buildRecord
  rw [hf]

/-- `buildRecord` tags its result with the kind it was dispatched
with. -/
theorem buildRecord_kind (k : PacketKind) (fs : List WireField)
    (p : List ℕ) (host : String) (r : Record)
    (h : buildRecord k fs p host = .ok r) : r.kind = k := by
  cases hf : parseFields fs p with
  | error e =>
    rw [buildRecord_eq_of_fields_error k host hf] at h
    exact absurd h (by simp)
  | ok dr =>
    rw [buildRecord_eq_of_fields_ok k host hf] at h
    cases ht : parseTrailer dr.2 with
    | error e => rw [ht] at h; exact absurd h (by simp)
    | ok tr =>
      rw [ht] at h
      simp only [Except.ok.injEq] at h
      rw [← h]

/-- Packet construction never raises the magic-byte error: that error
is raised by `discern` alone, before a constructor runs. -/
theorem buildRecord_no_magic (k : PacketKind) (fs : List WireField)
    (p : List ℕ) (host : String) :
    buildRecord k fs p host ≠ .error .unknownMagic := by
  intro h
  cases hf : parseFields fs p with
  | error e =>
    rw [buildRecord_eq_of_fields_error k host hf] at h
    simp only [Except.error.injEq] at h
    rw [h] at hf
    exact parseFields_no_magic fs p hf
  | ok dr =>
    rw [buildRecord_eq_of_fields_ok k host hf] at h
    cases ht : parseTrailer dr.2 with
    | error e =>
      rw [ht] at h
      simp only [Except.error.injEq] at h
      rw [h] at ht
      unfold parseTrailer at ht
      split at ht
      · exact absurd ht (by simp)
      · simp at ht
    | ok tr => rw [ht] at h; simp at h

theorem widthSum_nvr : widthSum nvr_fields = 32 := by decide

theorem widthSum_camera : widthSum camera_fields = 148 := by decide

/-- An NVR-schema decode succeeds exactly when the payload covers the
32-byte fixed header and the remainder is valid UTF-8. -/
theorem buildRecord_nvr_ok_iff (p : List ℕ) (host : String) :
    (∃ r, buildRecord .nvr nvr_fields p host = .ok r) ↔
      (32 ≤ p.length ∧ validUtf8 (p.drop 32) = true) := by
  constructor
  · rintro ⟨r, h⟩
    cases hf : parseFields nvr_fields p with
    | error e =>
      rw [buildRecord_eq_of_fields_error .nvr host hf] at h
      exact absurd h (by simp)
    | ok dr =>
      rw [buildRecord_eq_of_fields_ok .nvr host hf] at h
      obtain ⟨hlen, hrest⟩ := parseFields_ok_bounds nvr_fields p dr.1 dr.2
        (by rw [hf])
      rw [widthSum_nvr] at hlen hrest
      cases ht : parseTrailer dr.2 with
      | error e => rw [ht] at h; exact absurd h (by simp)
      | ok tr =>
        unfold parseTrailer at ht
        split at ht
        · rename_i hu
          rw [hrest] at hu
          exact ⟨hlen, hu⟩
        · exact absurd ht (by simp)
  · rintro ⟨hlen, hu⟩
    have hns : ∀ f ∈ nvr_fields, f.rule ≠ FieldRule.str := by decide
    obtain ⟨d, hd⟩ := parseFields_nonstr_ok nvr_fields p hns
      (by rw [widthSum_nvr]; exact hlen)
    rw [widthSum_nvr] at hd
    refine ⟨⟨.nvr, host, d, trailerPairs (splitLines (p.drop 32))⟩, ?_⟩
    rw [buildRecord_eq_of_fields_ok .nvr host hd]
    unfold parseTrailer
    rw [if_pos hu]

/-- `discern` on an `0xA3`-headed payload is the NVR constructor. -/
theorem discern_a3 (rest : List ℕ) (host : String) :
    discern (0xA3 :: rest) host =
      buildRecord .nvr nvr_fields (0xA3 :: rest) host := rfl

/-- `discern` on a `0xB3`-headed payload is the camera constructor. -/
theorem discern_b3 (rest : List ℕ) (host : String) :
    discern (0xB3 :: rest) host =
      buildRecord .camera camera_fields (0xB3 :: rest) host := rfl

/-- Counterexample to C3: the one-byte payload `[0xA3]` — length ≥ 1,
first byte `0xA3` — does not decode to an NVR record; the field loop's
`struct.unpack` raises on the truncated header, so an unrecognized
magic byte is not the only error the decoder produces. -/
theorem c3_counterexample :
    discern [0xA3] "192.0.2.7" = .error .structShort := rfl

/-- C3 (amended): the first byte alone selects the schema — anything
other than `0xA3`/`0xB3` fails with the unknown-magic `DecodeError`,
and a successful decode of an `0xA3` (resp. `0xB3`) payload is always
an NVR-kind (resp. Device-kind) record — but the constructors can fail
too: an `0xA3` payload decodes iff it covers the 32-byte fixed schema
and its trailer bytes are valid UTF-8 (`struct.error` /
`UnicodeDecodeError` otherwise), and a `0xB3` payload shorter than its
148-byte fixed schema never decodes. -/
theorem c3_magic_dispatch (b : ℕ) (rest : List ℕ) (host : String) :
    ((b ≠ 0xA3 ∧ b ≠ 0xB3) ↔
      discern (b :: rest) host = .error .unknownMagic) ∧
    (b = 0xA3 →
      ((∃ r, discern (b :: rest) host = .ok r) ↔
        (32 ≤ (b :: rest).length ∧
          validUtf8 ((b :: rest).drop 32) = true)) ∧
      (∀ r, discern (b :: rest) host = .ok r → r.kind = .nvr)) ∧
    (b = 0xB3 →
      (∀ r, discern (b :: rest) host = .ok r → r.kind = .camera) ∧
      ((b :: rest).length < 148 →
        ∀ r, discern (b :: rest) host ≠ .ok r)) := by
  refine ⟨⟨?_, ?_⟩, ?_, ?_⟩
  · rintro ⟨hA, hB⟩
    unfold discern
    split
    · rename_i heq
      injection heq with h1 _
      exact absurd h1 hA
    · rename_i heq
      injection heq with h1 _
      exact absurd h1 hB
    · rfl
  · intro h
    constructor
    · intro hb
      rw [hb, discern_a3] at h
      exact buildRecord_no_magic .nvr nvr_fields _ host h
    · intro hb
      rw [hb, discern_b3] at h
      exact buildRecord_no_magic .camera camera_fields _ host h
  · rintro rfl
    constructor
    · rw [discern_a3]
      exact buildRecord_nvr_ok_iff _ host
    · intro r h
      rw [discern_a3] at h
      exact buildRecord_kind .nvr nvr_fields _ host r h
  · rintro rfl
    constructor
    · intro r h
      rw [discern_b3] at h
      exact buildRecord_kind .camera camera_fields _ host r h
    · intro hlen r h
      rw [discern_b3] at h
      cases hf : parseFields camera_fields (0xB3 :: rest) with
      | error e =>
        rw [buildRecord_eq_of_fields_error .camera host hf] at h
        exact absurd h (by simp)
      | ok dr =>
        obtain ⟨hb, _⟩ := parseFields_ok_bounds camera_fields _ dr.1 dr.2
          (by rw [hf])
        rw [widthSum_camera] at hb
        simp only [List.length_cons] at hlen hb
        omega

/-- Witness for C3 (amended): a junk magic byte errors, a full 32-byte
`0xA3` header with empty trailer decodes, and a truncated `0xB3`
payload never decodes. -/
theorem c3_magic_dispatch_witness :
    discern (0 :: [1, 2]) "h" = .error .unknownMagic ∧
    (∃ r, discern (0xA3 :: List.replicate 31 0) "h" = .ok r) ∧
    discern (0xB3 :: [0]) "h" ≠ .ok ⟨.camera, "h", [], []⟩ := by
  refine ⟨?_, ?_, ?_⟩
  · exact (c3_magic_dispatch 0 [1, 2] "h").1.mp (by norm_num)
  · refine ((c3_magic_dispatch 0xA3 (List.replicate 31 0) "h").2.1
      rfl).1.mpr ⟨by simp, ?_⟩
    have hdp : ((0xA3 :: List.replicate 31 0).drop 32) = ([] : List ℕ) := by
      simp
    rw [hdp]
    rfl
  · exact ((c3_magic_dispatch 0xB3 [0] "h").2.2 rfl).2 (by norm_num)
      ⟨.camera, "h", [], []⟩

/-- A `sync` attempt prepends the newest sample and drops the oldest. -/
theorem sync_pushes_example :
    Clock.sync ⟨64, 3⟩ ⟨some "h", 0, [some 1, none, none]⟩ ((100 : ℚ), none) =
      ⟨some "h", 100, [none, some 1, none]⟩ := by
  norm_num [Clock.sync, List.dropLast]

/-! ### C6 — `server_offset` failure condition -/

/-- C6: the response-parsing phase of `sntp.server_offset` fails (the
source returns `None`, surfaced to `Clock.sync` as a failed exchange —
the spec's `ProtocolError`) if and only if the leap indicator decodes to
UNSYNCHRONIZED, or the mode is not SERVER, or the stratum is not
strictly between 0 and 16, or the transmit timestamp is zero; when all
four validations pass it returns the offset/delay pair. -/
theorem c6_server_offset_fails_iff
    (lvm stratum start_ts rx_ts tx_ts finish_ts : ℕ) :
    server_offset lvm stratum start_ts rx_ts tx_ts finish_ts = none ↔
      (leapOf lvm = LEAP_UNSYNCHRONIZED ∨ modeOf lvm ≠ MODE_SERVER ∨
        ¬(0 < stratum ∧ stratum < 16) ∨ tx_ts = 0) := by
  by_cases h : serverResponseOk lvm stratum tx_ts = true
  · simp only [server_offset, if_pos h]
    simp only [serverResponseOk, Bool.and_eq_true, decide_eq_true_eq] at h
    simp only [reduceCtorEq, false_iff]
    tauto
  · simp only [server_offset, if_neg h]
    simp only [serverResponseOk, Bool.and_eq_true, decide_eq_true_eq] at h
    simp only [true_iff]
    tauto

/-! ### C5 — offset/delay formulas -/

/-- C5: when the response validates, `server_offset` computes
`offset = ((receiveTs − originTs) − (responseReceivedAt − transmitTs)) / 2`
and `delay = (responseReceivedAt − originTs) − (transmitTs − receiveTs)`,
both scaled to seconds by the fixed-point factor 2^32; and on the §8
reference instants (origin 100.0 s, receive 100.5 s, transmit 100.6 s,
finish 100.2 s — scaled by ten so that each lands on an exact
fixed-point tick count) the results are the hand-computed 4.5 s offset
and 1 s delay. -/
theorem c5_offset_delay_formula :
    (∀ lvm stratum start_ts rx_ts tx_ts finish_ts : ℕ,
        serverResponseOk lvm stratum tx_ts = true →
        server_offset lvm stratum start_ts rx_ts tx_ts finish_ts =
          some (
            (((rx_ts : ℚ) - (start_ts : ℚ)) -
              ((finish_ts : ℚ) - (tx_ts : ℚ))) / 2 / MAX32,
            (((finish_ts : ℚ) - (start_ts : ℚ)) -
              ((tx_ts : ℚ) - (rx_ts : ℚ))) / MAX32)) ∧
    server_offset 36 2 (1000 * MAX32N) (1005 * MAX32N) (1006 * MAX32N)
        (1002 * MAX32N) = some (9 / 2, 1) := by
  constructor
  · intro lvm stratum start_ts rx_ts tx_ts finish_ts h
    simp only [server_offset, if_pos h]
  · have h : serverResponseOk 36 2 (1006 * MAX32N) = true := by decide
    simp only [server_offset, if_pos h]
    push_cast
    norm_num [MAX32, MAX32N]

/-- Witness for C5: the general formula applied at the scaled §8
reference response. -/
theorem c5_offset_delay_formula_witness :
    server_offset 36 2 (1000 * MAX32N) (1005 * MAX32N) (1006 * MAX32N)
        (1002 * MAX32N) = some (9 / 2, 1) := by
  rw [c5_offset_delay_formula.1 36 2 (1000 * MAX32N) (1005 * MAX32N)
    (1006 * MAX32N) (1002 * MAX32N) (by decide)]
  norm_num [MAX32, MAX32N]

/-! ### C2 — validity versus present samples -/

/-- Counterexample to C2: a history holding the present sample `0.0`
(a legal offset for a perfectly aligned server).  `is_valid` tests
`any(self.offset_buffer)` — Python truthiness, not presence — so it
returns `False` although a present sample exists, contradicting
"returns true iff at least one sample in history is present …
regardless of the numeric value". -/
theorem c2_counterexample :
    (Clock.is_valid ⟨64, 1⟩ ⟨some "h", 0, [some 0]⟩ ((0 : ℚ), none)).2
        = false ∧
    some (0 : ℚ) ∈
      (Clock.sync ⟨64, 1⟩ ⟨some "h", 0, [some 0]⟩
        ((0 : ℚ), none)).offset_buffer := by
  constructor
  · norm_num [Clock.is_valid, Clock.sync, pyTruthy]
  · norm_num [Clock.sync]

/-- C2 (amended): after the inner `trySync`, `is_valid` returns true iff
at least one sample in the history is present *and numerically nonzero*
(Python `any` over the buffer uses float truthiness, so a present
`0.0` sample does not count). -/
theorem c2_is_valid_iff (cfg : ClockConfig) (st : Clock) (e : SyncEv) :
    (Clock.is_valid cfg st e).2 = true ↔
      ∃ q : ℚ, some q ∈ (Clock.sync cfg st e).offset_buffer ∧ q ≠ 0 := by
  show (Clock.sync cfg st e).offset_buffer.any pyTruthy = true ↔ _
  simp only [List.any_eq_true]
  constructor
  · rintro ⟨o, ho, ht⟩
    cases o with
    | none => simp [pyTruthy] at ht
    | some q => exact ⟨q, ho, by simpa [pyTruthy] using ht⟩
  · rintro ⟨q, hq, hne⟩
    exact ⟨some q, hq, by simpa [pyTruthy]⟩

/-! ### C10 — rebinding the already-bound source -/

/-- C10: `use_ntp_server` with the server that is already bound reports
success and returns with the whole clock state — binding,
`last_refresh`, offset history — untouched, performing no sync attempt;
this holds for every state, in particular for a history with no present
sample. -/
theorem c10_rebind_same_server_noop (cfg : ClockConfig) (st : Clock)
    (server : String) (e1 e2 : SyncEv) (h : st.server = some server) :
    Clock.use_ntp_server cfg st server e1 e2 = (st, true) := by
  unfold Clock.use_ntp_server
  rw [if_pos h]

/-- Witness for C10, at a clock whose history holds no present sample
(the clock is invalid, yet rebinding still succeeds untouched). -/
theorem c10_rebind_same_server_noop_witness :
    Clock.use_ntp_server ⟨64, 2⟩ ⟨some "h", 5, [none, none]⟩ "h"
        ((100 : ℚ), none) ((100 : ℚ), none) =
      (⟨some "h", 5, [none, none]⟩, true) :=
  c10_rebind_same_server_noop ⟨64, 2⟩ ⟨some "h", 5, [none, none]⟩ "h"
    ((100 : ℚ), none) ((100 : ℚ), none) rfl

/-! ### C8 — offset-history length invariant -/

/-- C8: the offset history always has exactly `OFFSET_BUFFER_SIZE`
slots: construction/`reset` fills that many absent samples; a `sync`
preserves the length whatever the exchange outcome; `use_ntp_server`
preserves it on every path; and an actual sync attempt prepends one new
sample (present or absent) while dropping the oldest (last) slot. -/
theorem c8_buffer_length_invariant :
    (∀ (cfg : ClockConfig) (server : Option String),
      (Clock.reset cfg server).offset_buffer.length =
        cfg.OFFSET_BUFFER_SIZE) ∧
    (∀ (cfg : ClockConfig) (st : Clock) (e : SyncEv),
      0 < cfg.OFFSET_BUFFER_SIZE →
      st.offset_buffer.length = cfg.OFFSET_BUFFER_SIZE →
      (Clock.sync cfg st e).offset_buffer.length =
        cfg.OFFSET_BUFFER_SIZE) ∧
    (∀ (cfg : ClockConfig) (st : Clock) (server : String) (e1 e2 : SyncEv),
      0 < cfg.OFFSET_BUFFER_SIZE →
      st.offset_buffer.length = cfg.OFFSET_BUFFER_SIZE →
      (Clock.use_ntp_server cfg st server e1 e2).1.offset_buffer.length =
        cfg.OFFSET_BUFFER_SIZE) ∧
    (∀ (cfg : ClockConfig) (st : Clock) (e : SyncEv),
      st.server ≠ none → ¬(e.1 - st.last_refresh ≤ cfg.MAX_SYNC_AGE) →
      (Clock.sync cfg st e).offset_buffer =
        e.2 :: st.offset_buffer.dropLast) := by
  have hreset : ∀ (cfg : ClockConfig) (server : Option String),
      (Clock.reset cfg server).offset_buffer.length =
        cfg.OFFSET_BUFFER_SIZE := by
    intro cfg server
    simp [Clock.reset]
  have hsync : ∀ (cfg : ClockConfig) (st : Clock) (e : SyncEv),
      0 < cfg.OFFSET_BUFFER_SIZE →
      st.offset_buffer.length = cfg.OFFSET_BUFFER_SIZE →
      (Clock.sync cfg st e).offset_buffer.length =
        cfg.OFFSET_BUFFER_SIZE := by
    intro cfg st e hpos hlen
    unfold Clock.sync
    match hs : st.server with
    | none => exact hlen
    | some srv =>
      by_cases hage : e.1 - st.last_refresh ≤ cfg.MAX_SYNC_AGE
      · rw [if_pos hage]
        exact hlen
      · rw [if_neg hage]
        simp only [List.length_cons, List.length_dropLast]
        omega
  refine ⟨hreset, hsync, ?_, ?_⟩
  · intro cfg st server e1 e2 hpos hlen
    unfold Clock.use_ntp_server
    by_cases hsame : st.server = some server
    · rw [if_pos hsame]
      exact hlen
    · rw [if_neg hsame]
      have h1 := hsync cfg (Clock.reset cfg (some server)) e1 hpos
        (hreset cfg (some server))
      by_cases hv :
          (Clock.is_valid cfg
            (Clock.sync cfg (Clock.reset cfg (some server)) e1) e2).2 = true
      · simp only [hv, if_true]
        show (Clock.sync cfg _ e2).offset_buffer.length = _
        exact hsync cfg _ e2 hpos h1
      · simp only [hv, if_false, Bool.false_eq_true]
        exact hreset cfg none
  · intro cfg st e hserver hage
    unfold Clock.sync
    match hs : st.server with
    | none => exact absurd hs hserver
    | some srv => rw [if_neg hage]

/-! ### C9 — sleep degrades instead of raising -/

/-- Unfolding `sleepLoop` at a failing `now()`: the
`except UnsynchronizedException` handler sleeps the remaining estimate
and the call completes degraded. -/
theorem sleepLoop_cons_none (cfg : ClockConfig) (st : Clock)
    (soon delay resolution : ℚ) (ev : NowEnv) (evs : List NowEnv)
    (st1 : Clock) (hq : Clock.now cfg st ev.e1 ev.e2 ev.lnow = (st1, none)) :
    sleepLoop cfg st soon delay resolution (ev :: evs) =
      (st1, [delay], .degraded) := by
  simp only [sleepLoop, hq]

/-- Unfolding `sleepLoop` when the loop keeps polling. -/
theorem sleepLoop_cons_cont (cfg : ClockConfig) (st : Clock)
    (soon delay resolution : ℚ) (ev : NowEnv) (evs : List NowEnv)
    (st1 : Clock) (t : ℚ)
    (hq : Clock.now cfg st ev.e1 ev.e2 ev.lnow = (st1, some t))
    (hlt : soon > t) :
    sleepLoop cfg st soon delay resolution (ev :: evs) =
      ((sleepLoop cfg st1 soon (delay - resolution) resolution evs).1,
        resolution ::
          (sleepLoop cfg st1 soon (delay - resolution) resolution evs).2.1,
        (sleepLoop cfg st1 soon (delay - resolution) resolution evs).2.2) := by
  simp only [sleepLoop, hq]
  rw [if_pos hlt]

/-- Unfolding `sleepLoop` when the target instant has been reached. -/
theorem sleepLoop_cons_exit (cfg : ClockConfig) (st : Clock)
    (soon delay resolution : ℚ) (ev : NowEnv) (evs : List NowEnv)
    (st1 : Clock) (t : ℚ)
    (hq : Clock.now cfg st ev.e1 ev.e2 ev.lnow = (st1, some t))
    (hlt : ¬soon > t) :
    sleepLoop cfg st soon delay resolution (ev :: evs) =
      (st1, [], .normal) := by
  simp only [sleepLoop, hq]
  rw [if_neg hlt]

/-- C9 (of the intended `Clock.sleep`, line-90 colon restored — see the
module comment on the `sleep` definitions): (1) with an invalid clock
the call performs one plain full-duration wait; (2) a `now()` failure
at any polling-loop check completes the call through the degraded
plain-wait path, sleeping exactly the remaining estimate; (3) every
degraded completion slept `k` resolution ticks plus the remaining
`delay − k·resolution`; (4) the polling loop itself never re-raises —
only the `soon = self.now() + …` call before the `try` can. -/
theorem c9_sleep_degraded_paths :
    (∀ (cfg : ClockConfig) (st : Clock) (delay resolution : ℚ)
        (e0 : SyncEv) (f : NowEnv) (script : List NowEnv),
      (Clock.is_valid cfg st e0).2 = false →
      Clock.sleep cfg st delay resolution e0 f script =
        ((Clock.is_valid cfg st e0).1, [delay], .plain)) ∧
    (∀ (cfg : ClockConfig) (st : Clock) (soon delay resolution : ℚ)
        (ev : NowEnv) (evs : List NowEnv),
      (Clock.now cfg st ev.e1 ev.e2 ev.lnow).2 = none →
      sleepLoop cfg st soon delay resolution (ev :: evs) =
        ((Clock.now cfg st ev.e1 ev.e2 ev.lnow).1, [delay], .degraded)) ∧
    (∀ (cfg : ClockConfig) (st : Clock) (soon delay resolution : ℚ)
        (script : List NowEnv),
      (sleepLoop cfg st soon delay resolution script).2.2 = .degraded →
      ∃ (k : ℕ) (st' : Clock),
        sleepLoop cfg st soon delay resolution script =
          (st', List.replicate k resolution ++
            [delay - (k : ℚ) * resolution], .degraded)) ∧
    (∀ (cfg : ClockConfig) (st : Clock) (soon delay resolution : ℚ)
        (script : List NowEnv),
      (sleepLoop cfg st soon delay resolution script).2.2 ≠ .raised) := by
  refine ⟨?_, ?_, ?_, ?_⟩
  · intro cfg st delay resolution e0 f script h
    cases hp : Clock.is_valid cfg st e0 with
    | mk st1 b =>
      rw [hp] at h
      have hb : b = false := h
      subst hb
      simp only [Clock.sleep, hp]
  · intro cfg st soon delay resolution ev evs h
    have hq : Clock.now cfg st ev.e1 ev.e2 ev.lnow =
        ((Clock.now cfg st ev.e1 ev.e2 ev.lnow).1, none) := by
      rw [← h]
    exact sleepLoop_cons_none cfg st soon delay resolution ev evs _ hq
  · intro cfg st soon delay resolution script
    induction script generalizing st delay with
    | nil => intro h; simp [sleepLoop] at h
    | cons ev evs ih =>
      intro h
      cases hq : Clock.now cfg st ev.e1 ev.e2 ev.lnow with
      | mk st1 o =>
        cases o with
        | none =>
          refine ⟨0, st1, ?_⟩
          rw [sleepLoop_cons_none cfg st soon delay resolution ev evs st1 hq]
          norm_num
        | some t =>
          by_cases hlt : soon > t
          · rw [sleepLoop_cons_cont cfg st soon delay resolution ev evs
              st1 t hq hlt] at h ⊢
            simp only at h
            obtain ⟨k, st', hres⟩ := ih st1 (delay - resolution) h
            refine ⟨k + 1, st', ?_⟩
            rw [hres]
            have harith : delay - resolution - (k : ℚ) * resolution =
                delay - ((k : ℚ) + 1) * resolution := by ring
            simp [List.replicate_succ, harith]
          · rw [sleepLoop_cons_exit cfg st soon delay resolution ev evs
              st1 t hq hlt] at h
            simp at h
  · intro cfg st soon delay resolution script
    induction script generalizing st delay with
    | nil => simp [sleepLoop]
    | cons ev evs ih =>
      cases hq : Clock.now cfg st ev.e1 ev.e2 ev.lnow with
      | mk st1 o =>
        cases o with
        | none =>
          rw [sleepLoop_cons_none cfg st soon delay resolution ev evs st1 hq]
          simp
        | some t =>
          by_cases hlt : soon > t
          · rw [sleepLoop_cons_cont cfg st soon delay resolution ev evs
              st1 t hq hlt]
            exact ih st1 (delay - resolution)
          · rw [sleepLoop_cons_exit cfg st soon delay resolution ev evs
              st1 t hq hlt]
            simp

/-- Witness for C9: with an unbound, empty-history clock (invalid), a
5-second sleep is one plain 5-second wait; and the same clock failing
`now()` at the first polling check degrades to a plain wait for the
full remaining 5 seconds. -/
theorem c9_sleep_degraded_paths_witness :
    Clock.sleep ⟨64, 1⟩ ⟨none, 0, [none]⟩ 5 1 ((0 : ℚ), none)
        ⟨((0 : ℚ), none), ((0 : ℚ), none), 0⟩ [] =
      ((⟨none, 0, [none]⟩ : Clock), [5], .plain) ∧
    sleepLoop ⟨64, 1⟩ ⟨none, 0, [none]⟩ 10 5 1
        [⟨((0 : ℚ), none), ((0 : ℚ), none), 0⟩] =
      ((⟨none, 0, [none]⟩ : Clock), [5], .degraded) := by
  constructor
  · rw [c9_sleep_degraded_paths.1 ⟨64, 1⟩ ⟨none, 0, [none]⟩ 5 1
      ((0 : ℚ), none) ⟨((0 : ℚ), none), ((0 : ℚ), none), 0⟩ []
      (by norm_num [Clock.is_valid, Clock.sync, pyTruthy])]
    norm_num [Clock.is_valid, Clock.sync]
  · rw [c9_sleep_degraded_paths.2.1 ⟨64, 1⟩ ⟨none, 0, [none]⟩ 10 5 1
      ⟨((0 : ℚ), none), ((0 : ℚ), none), 0⟩ []
      (by norm_num [Clock.now, Clock.is_valid, Clock.sync, pyTruthy])]
    norm_num [Clock.now, Clock.is_valid, Clock.sync, pyTruthy]

/-- Witness for C8: buffer size 1 — a sync attempt, a failing bind and
the push shape, each leaving exactly one slot. -/
theorem c8_buffer_length_invariant_witness :
    (Clock.sync ⟨64, 1⟩ ⟨some "h", 0, [some 1]⟩
        ((100 : ℚ), none)).offset_buffer.length = 1 ∧
    (Clock.use_ntp_server ⟨64, 1⟩ ⟨none, 0, [none]⟩ "h"
        ((100 : ℚ), none) ((100 : ℚ), none)).1.offset_buffer.length = 1 ∧
    (Clock.sync ⟨64, 1⟩ ⟨some "h", 0, [some 1]⟩
        ((100 : ℚ), none)).offset_buffer =
      none :: ([some (1 : ℚ)]).dropLast := by
  refine ⟨?_, ?_, ?_⟩
  · exact c8_buffer_length_invariant.2.1 ⟨64, 1⟩ ⟨some "h", 0, [some 1]⟩
      ((100 : ℚ), none) (by norm_num) rfl
  · exact c8_buffer_length_invariant.2.2.1 ⟨64, 1⟩ ⟨none, 0, [none]⟩ "h"
      ((100 : ℚ), none) ((100 : ℚ), none) (by norm_num) rfl
  · exact c8_buffer_length_invariant.2.2.2 ⟨64, 1⟩ ⟨some "h", 0, [some 1]⟩
      ((100 : ℚ), none) (by simp) (by norm_num)
